import Mathlib

/-!
Verification development for the task-management client controller in
src/static/js/task_manage.js (function initTaskManagement; the file holds two
near-identical versions of the controller, whose sorting, filtering, row-click,
date-formatting and submission logic coincide except where noted in comments)
and in the near-duplicate src/static/js/task_manage copy.js, whose deleteTask
and validating handleTaskSubmission are embedded where claims cite them.

Shallow embedding conventions:
* A JavaScript value that may be null/undefined is an Option.
* JavaScript numbers appearing in date arithmetic are Option Int, with none
  standing for NaN (NaN propagates through arithmetic and stringifies to "NaN").
* The browser Date parser is an external collaborator; definitions that call
  new Date(string) take a parameter parse : String -> Option Int returning the
  epoch-milliseconds time value, none when the host yields an Invalid Date.
* Array.prototype.sort is stable (ES2019).  For a consistent comparator every
  stable sort produces the same output, so it is modelled by a stable insertion
  sort (sortIns below).
-/

namespace TaskManage

/-- Project reference as consumed by the controller (task.project in the JSON). -/
structure Project where
  id : Option Int
  name : Option String
deriving DecidableEq

/-- Assignee reference as consumed by the controller (task.assignee in the JSON). -/
structure Assignee where
  id : Option Int
  full_name : Option String
  username : Option String
deriving DecidableEq

/-- Task object fields the verified operations read.  Remaining JSON fields
(description, type, severity, created/updated timestamps) do not feed sorting,
filtering, row rendering or selection and are omitted from the embedding. -/
structure Task where
  id : Int
  title : Option String
  project : Option Project
  assignee : Option Assignee
  priority : Option String
  status : Option String
  due_date : Option String
deriving DecidableEq

/-- Truthiness of a JavaScript string-or-nullish value: null, undefined and
the empty string are falsy. -/
def truthyS : Option String → Bool
  | some s => decide (s ≠ "")
  | none => false

/-- JavaScript logical-or specialised to string-or-nullish values:
x || y yields x when x is truthy, otherwise y. -/
def jsStrOr (x y : Option String) : Option String :=
  if truthyS x then x else y

/-- JavaScript toLowerCase on the strings this controller compares:
character-wise ASCII lowering (Char.toLower lowers exactly the Basic Latin
capitals, matching toLowerCase on the priority/status/title values in play). -/
def jsToLower (s : String) : String :=
  String.mk (s.toList.map Char.toLower)

/-- Comparator operand produced by the sortTasks switch: a number, a string,
or NaN (an invalid Date time value). -/
inductive SVal where
  | num (n : Int)
  | str (s : String)
  | nan
deriving DecidableEq

/-- JavaScript ToNumber on the strings that can reach a mixed string/number
relational comparison in this controller.  The only string operand sortTasks
can produce is "" (the null/undefined coercion at the end of the comparator),
and ToNumber of "" is 0; other strings are parsed as an optional integer,
none standing for NaN. -/
def jsToNumber (s : String) : Option Int :=
  if s = "" then some 0 else s.toInt?

/-- Lexicographic less-than on character lists: the JavaScript relational
comparison of two strings (code-unit lexicographic; code points coincide with
code units on the values this controller compares). -/
def strLtB : List Char → List Char → Bool
  | [], [] => false
  | [], _ :: _ => true
  | _ :: _, [] => false
  | a :: as, b :: bs => if a = b then strLtB as bs else decide (a < b)

/-- JavaScript relational less-than on comparator operands: numbers compare
numerically, strings lexicographically, a mixed pair converts the string with
ToNumber, and every comparison against NaN is false. -/
def jsLtV : SVal → SVal → Bool
  | .num a, .num b => decide (a < b)
  | .str a, .str b => strLtB a.toList b.toList
  | .num a, .str s =>
    match jsToNumber s with
    | some v => decide (a < v)
    | none => false
  | .str s, .num b =>
    match jsToNumber s with
    | some v => decide (v < b)
    | none => false
  | _, _ => false

/-- Sort fields offered by the table headers (th data-sort values). -/
inductive SortField where
  | title
  | project
  | assignee
  | priority
  | status
  | due_date
deriving DecidableEq

/-- Sort directions. -/
inductive SortDir where
  | asc
  | desc
deriving DecidableEq

/-- Fixed priority rank table of sortTasks:
priorityOrder = (urgent 0, high 1, medium 2, low 3); lookup of any other
value (including null/undefined) is undefined, modelled as none. -/
def priorityOrder : Option String → Option Int
  | some "urgent" => some 0
  | some "high" => some 1
  | some "medium" => some 2
  | some "low" => some 3
  | _ => none

/-- Fixed status rank table of sortTasks:
statusOrder = (todo 0, in_progress 1, review 2, done 3). -/
def statusOrder : Option String → Option Int
  | some "todo" => some 0
  | some "in_progress" => some 1
  | some "review" => some 2
  | some "done" => some 3
  | _ => none

/-- Rank-table lookup result as a comparator operand: an undefined lookup is
coerced to the empty string by the null/undefined check that follows the
switch in sortTasks. -/
def rankSVal : Option Int → SVal
  | some r => .num r
  | none => .str ""

/-- Comparator operand computed by the switch in sortTasks for one task,
with the subsequent null/undefined-to-empty-string coercion already applied
(the only nullish operand the switch can produce is an undefined rank lookup). -/
def sortValue (parse : String → Option Int) (f : SortField) (t : Task) : SVal :=
  match f with
  | .title => .str (jsToLower (t.title.getD ""))
  | .project => .str (jsToLower ((t.project.bind Project.name).getD ""))
  | .assignee =>
    .str (jsToLower ((jsStrOr (t.assignee.bind Assignee.full_name)
      (t.assignee.bind Assignee.username)).getD ""))
  | .priority => rankSVal (priorityOrder t.priority)
  | .status => rankSVal (statusOrder t.status)
  | .due_date =>
    match t.due_date with
    | some s =>
      if s = "" then .num 0
      else
        match parse s with
        | some v => .num v
        | none => .nan
    | none => .num 0

/-- Three-way comparator passed to tasks.sort: -1/1 when valueA is less or
greater (signs swapped for descending), 0 otherwise. -/
def jsCompare (parse : String → Option Int) (f : SortField) (d : SortDir)
    (a b : Task) : Int :=
  let valueA := sortValue parse f a
  let valueB := sortValue parse f b
  if jsLtV valueA valueB then (match d with | .asc => -1 | .desc => 1)
  else if jsLtV valueB valueA then (match d with | .asc => 1 | .desc => -1)
  else 0

/-- Stable insertion step: place x before the first element it need not
follow (le x y true keeps x in front, so earlier-input elements precede
later equal ones). -/
def insertS {α : Type} (le : α → α → Bool) (x : α) : List α → List α
  | [] => [x]
  | y :: ys => if le x y then x :: y :: ys else y :: insertS le x ys

/-- Stable insertion sort: the model of Array.prototype.sort (stable per
ES2019; any stable sort computes the same list for a consistent comparator). -/
def sortIns {α : Type} (le : α → α → Bool) : List α → List α
  | [] => []
  | x :: xs => insertS le x (sortIns le xs)

/-- Model of sortTasks: stable sort of the task list under the jsCompare
comparator for the current sort field and direction. -/
def sortTasks (parse : String → Option Int) (f : SortField) (d : SortDir)
    (l : List Task) : List Task :=
  sortIns (fun a b => decide (jsCompare parse f d a b ≤ 0)) l

theorem mem_insertS {α : Type} (le : α → α → Bool) (x z : α) :
    ∀ m : List α, z ∈ insertS le x m ↔ z = x ∨ z ∈ m := by
  intro m
  induction m with
  | nil => simp [insertS]
  | cons y ys ih =>
    simp only [insertS]
    split
    · simp only [List.mem_cons]
    · simp only [List.mem_cons, ih]
      tauto

theorem perm_insertS {α : Type} (le : α → α → Bool) (x : α) :
    ∀ m : List α, List.Perm (insertS le x m) (x :: m) := by
  intro m
  induction m with
  | nil => simp [insertS]
  | cons y ys ih =>
    simp only [insertS]
    split
    · exact List.Perm.refl _
    · exact (ih.cons y).trans (List.Perm.swap x y ys)

theorem perm_sortIns {α : Type} (le : α → α → Bool) :
    ∀ l : List α, List.Perm (sortIns le l) l := by
  intro l
  induction l with
  | nil => simp [sortIns]
  | cons x xs ih =>
    exact (perm_insertS le x (sortIns le xs)).trans (ih.cons x)

theorem mem_sortIns {α : Type} (le : α → α → Bool) (l : List α) (z : α) :
    z ∈ sortIns le l ↔ z ∈ l :=
  (perm_sortIns le l).mem_iff

/-- Ascending Boolean comparator induced by a key function. -/
def keyLe {α K : Type} [LinearOrder K] (k : α → K) (a b : α) : Bool :=
  decide (k a ≤ k b)

/-- Descending Boolean comparator induced by a key function. -/
def keyGe {α K : Type} [LinearOrder K] (k : α → K) (a b : α) : Bool :=
  decide (k b ≤ k a)

theorem pairwise_insertS {α K : Type} [LinearOrder K] (k : α → K) (x : α) :
    ∀ m : List α, m.Pairwise (fun a b => k a ≤ k b) →
      (insertS (keyLe k) x m).Pairwise (fun a b => k a ≤ k b) := by
  intro m
  induction m with
  | nil => simp [insertS]
  | cons y ys ih =>
    intro h
    rw [List.pairwise_cons] at h
    obtain ⟨hy, hys⟩ := h
    simp only [insertS]
    split
    · rename_i hxy
      have hxy' : k x ≤ k y := of_decide_eq_true hxy
      refine List.pairwise_cons.mpr ⟨?_, List.pairwise_cons.mpr ⟨hy, hys⟩⟩
      intro z hz
      rcases List.mem_cons.mp hz with hz | hz
      · exact hz ▸ hxy'
      · exact le_trans hxy' (hy z hz)
    · rename_i hxy
      have hxy' : k y ≤ k x := le_of_not_le (fun h => hxy (decide_eq_true h))
      refine List.pairwise_cons.mpr ⟨?_, ih hys⟩
      intro z hz
      rcases (mem_insertS (keyLe k) x z ys).mp hz with hz | hz
      · exact hz ▸ hxy'
      · exact hy z hz

theorem sorted_sortIns {α K : Type} [LinearOrder K] (k : α → K) :
    ∀ l : List α, (sortIns (keyLe k) l).Pairwise (fun a b => k a ≤ k b) := by
  intro l
  induction l with
  | nil => simp [sortIns]
  | cons x xs ih => exact pairwise_insertS k x (sortIns (keyLe k) xs) ih

theorem insertS_min {α K : Type} [LinearOrder K] (k : α → K) (x : α)
    (s : List α) (h : ∀ z ∈ s, k x ≤ k z) :
    insertS (keyLe k) x s = x :: s := by
  cases s with
  | nil => rfl
  | cons z zs =>
    have : keyLe k x z = true := decide_eq_true (h z (List.mem_cons_self z zs))
    simp [insertS, this]

theorem sortIns_insertGe_min {α K : Type} [LinearOrder K] (k : α → K) (x : α) :
    ∀ m : List α, (∀ y ∈ m, k x ≤ k y) →
      sortIns (keyLe k) (insertS (keyGe k) x m) = x :: sortIns (keyLe k) m := by
  intro m
  induction m with
  | nil => intro _; rfl
  | cons y ys ih =>
    intro hmin
    simp only [insertS]
    split
    · rename_i hge
      show sortIns (keyLe k) (x :: y :: ys) = x :: sortIns (keyLe k) (y :: ys)
      show insertS (keyLe k) x (sortIns (keyLe k) (y :: ys))
        = x :: sortIns (keyLe k) (y :: ys)
      refine insertS_min k x _ (fun z hz => ?_)
      exact hmin z ((mem_sortIns (keyLe k) (y :: ys) z).mp hz)
    · rename_i hge
      have hys : ∀ z ∈ ys, k x ≤ k z := fun z hz =>
        hmin z (List.mem_cons_of_mem y hz)
      show sortIns (keyLe k) (y :: insertS (keyGe k) x ys)
        = x :: sortIns (keyLe k) (y :: ys)
      show insertS (keyLe k) y (sortIns (keyLe k) (insertS (keyGe k) x ys))
        = x :: insertS (keyLe k) y (sortIns (keyLe k) ys)
      rw [ih hys]
      have hyx : keyLe k y x = false := by
        have : ¬ k y ≤ k x := fun h => hge (decide_eq_true h)
        exact decide_eq_false this
      simp [insertS, hyx]

theorem sortIns_desc_asc_of_sorted {α K : Type} [LinearOrder K] (k : α → K) :
    ∀ s : List α, s.Pairwise (fun a b => k a ≤ k b) →
      sortIns (keyLe k) (sortIns (keyGe k) s) = s := by
  intro s
  induction s with
  | nil => intro _; rfl
  | cons x s2 ih =>
    intro h
    rw [List.pairwise_cons] at h
    obtain ⟨hx, hs2⟩ := h
    show sortIns (keyLe k) (insertS (keyGe k) x (sortIns (keyGe k) s2)) = x :: s2
    rw [sortIns_insertGe_min k x _ (fun y hy =>
      hx y ((mem_sortIns (keyGe k) s2 y).mp hy))]
    rw [ih hs2]

/-- Sorting ascending, then descending, then ascending with the comparators
induced by one key yields the same list as the first ascending sort. -/
theorem sortIns_roundTrip {α K : Type} [LinearOrder K] (k : α → K)
    (l : List α) :
    sortIns (keyLe k) (sortIns (keyGe k) (sortIns (keyLe k) l))
      = sortIns (keyLe k) l :=
  sortIns_desc_asc_of_sorted k (sortIns (keyLe k) l) (sorted_sortIns k l)

theorem insertS_congr {α : Type} (c₁ c₂ : α → α → Bool) (x : α) :
    ∀ m : List α, (∀ b ∈ m, c₁ x b = c₂ x b) →
      insertS c₁ x m = insertS c₂ x m := by
  intro m
  induction m with
  | nil => intro _; rfl
  | cons y ys ih =>
    intro h
    simp only [insertS, h y (List.mem_cons_self y ys)]
    split
    · rfl
    · rw [ih (fun b hb => h b (List.mem_cons_of_mem y hb))]

theorem sortIns_congr {α : Type} (c₁ c₂ : α → α → Bool) :
    ∀ l : List α, (∀ a ∈ l, ∀ b ∈ l, c₁ a b = c₂ a b) →
      sortIns c₁ l = sortIns c₂ l := by
  intro l
  induction l with
  | nil => intro _; rfl
  | cons x xs ih =>
    intro h
    show insertS c₁ x (sortIns c₁ xs) = insertS c₂ x (sortIns c₂ xs)
    rw [ih (fun a ha b hb =>
      h a (List.mem_cons_of_mem x ha) b (List.mem_cons_of_mem x hb))]
    refine insertS_congr c₁ c₂ x _ (fun b hb => ?_)
    have hb' : b ∈ xs := (mem_sortIns c₂ xs b).mp hb
    exact h x (List.mem_cons_self x xs) b (List.mem_cons_of_mem x hb')

/-- Sort key of the title field: the lowered title (List Char carries the
lexicographic linear order matching the JavaScript string comparison). -/
def kTitle (t : Task) : List Char :=
  (jsToLower (t.title.getD "")).toList

/-- Sort key of the project field. -/
def kProj (t : Task) : List Char :=
  (jsToLower ((t.project.bind Project.name).getD "")).toList

/-- Sort key of the assignee field. -/
def kAssignee (t : Task) : List Char :=
  (jsToLower ((jsStrOr (t.assignee.bind Assignee.full_name)
    (t.assignee.bind Assignee.username)).getD "")).toList

/-- Effective priority key: rank-table value, with an undefined lookup acting
as 0 (the coerced empty string converts to number 0 in the comparator). -/
def kPrio (t : Task) : Int :=
  (priorityOrder t.priority).getD 0

/-- Effective status key, analogous to kPrio. -/
def kStatus (t : Task) : Int :=
  (statusOrder t.status).getD 0

/-- Effective due-date key once every present date parses: the epoch
milliseconds, with a missing or empty date standing for new Date(0). -/
def kDue (parse : String → Option Int) (t : Task) : Int :=
  match t.due_date with
  | none => 0
  | some s => if s = "" then 0 else (parse s).getD 0

/-- A task whose due date, when present and nonempty, is accepted by the host
Date parser (the spec exchanges dates as ISO-8601 timestamps). -/
def DueOk (parse : String → Option Int) (t : Task) : Prop :=
  ∀ s, t.due_date = some s → s ≠ "" → (parse s).isSome = true

theorem strLtB_iff : ∀ as bs : List Char,
    strLtB as bs = true ↔ List.Lex (· < ·) as bs := by
  intro as
  induction as with
  | nil =>
    intro bs
    cases bs with
    | nil => simp [strLtB]
    | cons b bs => simp [strLtB, List.Lex.nil]
  | cons a as ih =>
    intro bs
    cases bs with
    | nil => simp [strLtB]
    | cons b bs =>
      simp only [strLtB]
      by_cases hab : a = b
      · subst hab
        rw [if_pos rfl, ih bs]
        exact (@List.Lex.cons_iff Char (· < ·) _ a as bs).symm
      · simp only [if_neg hab, decide_eq_true_eq]
        constructor
        · exact fun h => List.Lex.rel h
        · intro h
          cases h with
          | cons h => exact absurd rfl hab
          | rel h => exact h

theorem strLtB_eq_decide (as bs : List Char) :
    strLtB as bs = decide (as < bs) := by
  by_cases h : as < bs
  · rw [decide_eq_true h]
    exact (strLtB_iff as bs).mpr h
  · rw [decide_eq_false h]
    cases hb : strLtB as bs
    · rfl
    · exact absurd ((strLtB_iff as bs).mp hb) h

theorem jsLtV_str (x y : String) :
    jsLtV (.str x) (.str y) = decide (x.toList < y.toList) :=
  strLtB_eq_decide x.toList y.toList

theorem jsLtV_rank (x y : Option Int) :
    jsLtV (rankSVal x) (rankSVal y) = decide (x.getD 0 < y.getD 0) := by
  rcases x with _ | a <;> rcases y with _ | b <;>
    simp [rankSVal, jsLtV, jsToNumber, strLtB]

theorem cmp_le_asc {K : Type} [LinearOrder K] (x y : K) :
    decide ((if decide (x < y) then (-1 : Int)
      else if decide (y < x) then (1 : Int) else 0) ≤ 0) = decide (x ≤ y) := by
  rcases lt_trichotomy x y with h | h | h
  · simp [h, h.le]
  · subst h
    simp
  · simp [h, not_lt_of_gt h, not_le_of_gt h]

theorem cmp_le_desc {K : Type} [LinearOrder K] (x y : K) :
    decide ((if decide (x < y) then (1 : Int)
      else if decide (y < x) then (-1 : Int) else 0) ≤ 0) = decide (y ≤ x) := by
  rcases lt_trichotomy x y with h | h | h
  · simp [h, not_lt_of_gt h, not_le_of_gt h]
  · subst h
    simp
  · simp [h, not_lt_of_gt h, h.le]

/-- Direction-dependent key comparator: ascending keeps keyLe, descending
swaps the comparator operands exactly as the sign swap in the source does. -/
def dirKey {α K : Type} [LinearOrder K] (d : SortDir) (k : α → K) :
    α → α → Bool :=
  match d with
  | .asc => keyLe k
  | .desc => keyGe k

theorem jsCompare_le_eq {K : Type} [LinearOrder K]
    (parse : String → Option Int) (f : SortField) (d : SortDir) (k : Task → K)
    (a b : Task)
    (h1 : jsLtV (sortValue parse f a) (sortValue parse f b)
      = decide (k a < k b))
    (h2 : jsLtV (sortValue parse f b) (sortValue parse f a)
      = decide (k b < k a)) :
    decide (jsCompare parse f d a b ≤ 0) = dirKey d k a b := by
  cases d with
  | asc =>
    show decide (jsCompare parse f .asc a b ≤ 0) = keyLe k a b
    simp only [jsCompare, h1, h2]
    exact cmp_le_asc (k a) (k b)
  | desc =>
    show decide (jsCompare parse f .desc a b ≤ 0) = keyGe k a b
    simp only [jsCompare, h1, h2]
    exact cmp_le_desc (k a) (k b)

theorem sortTasks_title (parse : String → Option Int) (d : SortDir)
    (l : List Task) :
    sortTasks parse .title d l = sortIns (dirKey d kTitle) l := by
  unfold sortTasks
  refine congrFun (congrArg sortIns (funext fun a => funext fun b => ?_)) l
  exact jsCompare_le_eq parse .title d kTitle a b
    (jsLtV_str _ _) (jsLtV_str _ _)

theorem sortTasks_project (parse : String → Option Int) (d : SortDir)
    (l : List Task) :
    sortTasks parse .project d l = sortIns (dirKey d kProj) l := by
  unfold sortTasks
  refine congrFun (congrArg sortIns (funext fun a => funext fun b => ?_)) l
  exact jsCompare_le_eq parse .project d kProj a b
    (jsLtV_str _ _) (jsLtV_str _ _)

theorem sortTasks_assignee (parse : String → Option Int) (d : SortDir)
    (l : List Task) :
    sortTasks parse .assignee d l = sortIns (dirKey d kAssignee) l := by
  unfold sortTasks
  refine congrFun (congrArg sortIns (funext fun a => funext fun b => ?_)) l
  exact jsCompare_le_eq parse .assignee d kAssignee a b
    (jsLtV_str _ _) (jsLtV_str _ _)

theorem sortTasks_priority (parse : String → Option Int) (d : SortDir)
    (l : List Task) :
    sortTasks parse .priority d l = sortIns (dirKey d kPrio) l := by
  unfold sortTasks
  refine congrFun (congrArg sortIns (funext fun a => funext fun b => ?_)) l
  exact jsCompare_le_eq parse .priority d kPrio a b
    (jsLtV_rank _ _) (jsLtV_rank _ _)

theorem sortTasks_status (parse : String → Option Int) (d : SortDir)
    (l : List Task) :
    sortTasks parse .status d l = sortIns (dirKey d kStatus) l := by
  unfold sortTasks
  refine congrFun (congrArg sortIns (funext fun a => funext fun b => ?_)) l
  exact jsCompare_le_eq parse .status d kStatus a b
    (jsLtV_rank _ _) (jsLtV_rank _ _)

theorem jsLtV_due (parse : String → Option Int) (a b : Task)
    (ha : DueOk parse a) (hb : DueOk parse b) :
    jsLtV (sortValue parse .due_date a) (sortValue parse .due_date b)
      = decide (kDue parse a < kDue parse b) := by
  have hva : sortValue parse .due_date a = .num (kDue parse a) := by
    unfold sortValue kDue
    cases hda : a.due_date with
    | none => rfl
    | some s =>
      by_cases hs : s = ""
      · simp [hs]
      · obtain ⟨v, hv⟩ := Option.isSome_iff_exists.mp (ha s hda hs)
        simp [hs, hv]
  have hvb : sortValue parse .due_date b = .num (kDue parse b) := by
    unfold sortValue kDue
    cases hdb : b.due_date with
    | none => rfl
    | some s =>
      by_cases hs : s = ""
      · simp [hs]
      · obtain ⟨v, hv⟩ := Option.isSome_iff_exists.mp (hb s hdb hs)
        simp [hs, hv]
  rw [hva, hvb]
  rfl

theorem sortTasks_due (parse : String → Option Int) (d : SortDir)
    (l : List Task) (h : ∀ t ∈ l, DueOk parse t) :
    sortTasks parse .due_date d l = sortIns (dirKey d (kDue parse)) l := by
  unfold sortTasks
  refine sortIns_congr _ _ l (fun a hal b hbl => ?_)
  exact jsCompare_le_eq parse .due_date d (kDue parse) a b
    (jsLtV_due parse a b (h a hal) (h b hbl))
    (jsLtV_due parse b a (h b hbl) (h a hal))

/-- Three sorts on one field, ascending then descending then ascending,
give back the first ascending result (for the due-date field provided the
present due dates parse, as the ISO-8601 exchange format guarantees). -/
theorem sortTasks_roundTrip (parse : String → Option Int) (f : SortField)
    (l : List Task) (hdue : f = .due_date → ∀ t ∈ l, DueOk parse t) :
    sortTasks parse f .asc (sortTasks parse f .desc (sortTasks parse f .asc l))
      = sortTasks parse f .asc l := by
  cases f with
  | title =>
    rw [sortTasks_title parse .asc l,
      sortTasks_title parse .desc (sortIns (dirKey .asc kTitle) l),
      sortTasks_title parse .asc _]
    exact sortIns_roundTrip kTitle l
  | project =>
    rw [sortTasks_project parse .asc l,
      sortTasks_project parse .desc (sortIns (dirKey .asc kProj) l),
      sortTasks_project parse .asc _]
    exact sortIns_roundTrip kProj l
  | assignee =>
    rw [sortTasks_assignee parse .asc l,
      sortTasks_assignee parse .desc (sortIns (dirKey .asc kAssignee) l),
      sortTasks_assignee parse .asc _]
    exact sortIns_roundTrip kAssignee l
  | priority =>
    rw [sortTasks_priority parse .asc l,
      sortTasks_priority parse .desc (sortIns (dirKey .asc kPrio) l),
      sortTasks_priority parse .asc _]
    exact sortIns_roundTrip kPrio l
  | status =>
    rw [sortTasks_status parse .asc l,
      sortTasks_status parse .desc (sortIns (dirKey .asc kStatus) l),
      sortTasks_status parse .asc _]
    exact sortIns_roundTrip kStatus l
  | due_date =>
    have h0 : ∀ t ∈ l, DueOk parse t := hdue rfl
    have h1 : ∀ t ∈ sortIns (dirKey .asc (kDue parse)) l, DueOk parse t :=
      fun t ht => h0 t ((mem_sortIns _ l t).mp ht)
    have h2 : ∀ t ∈ sortIns (dirKey .desc (kDue parse))
        (sortIns (dirKey .asc (kDue parse)) l), DueOk parse t :=
      fun t ht => h1 t ((mem_sortIns _ _ t).mp ht)
    rw [sortTasks_due parse .asc l h0,
      sortTasks_due parse .desc _ h1,
      sortTasks_due parse .asc _ h2]
    exact sortIns_roundTrip (kDue parse) l

/-- Minimal task value for concrete instances: an id, a priority and a
status, with every other field absent. -/
def sampleTask (n : Int) (p st : Option String) : Task :=
  ⟨n, none, none, none, p, st, none⟩

/-- Client UI state owned by initTaskManagement: the in-memory task list,
the current sort field and direction, the selected task id and the
detail-panel visibility (isEditing only steers modal labels). -/
structure ControllerState where
  tasks : List Task
  currentSortField : SortField
  currentSortDirection : SortDir
  selectedTaskId : Option Int
  detailVisible : Bool
deriving DecidableEq

/-- Direction flip performed by a repeated header click. -/
def toggleDir : SortDir → SortDir
  | .asc => .desc
  | .desc => .asc

/-- Header-click handler wired by setupSorting: a click on the current sort
field toggles the direction, a click on a new field selects it ascending;
then sortTasks re-sorts the list in place (updateSortingUI and
renderTasksTable only touch the DOM). -/
def clickSortHeader (parse : String → Option Int) (f : SortField)
    (st : ControllerState) : ControllerState :=
  let d := if f = st.currentSortField then toggleDir st.currentSortDirection
    else SortDir.asc
  { st with currentSortField := f, currentSortDirection := d,
            tasks := sortTasks parse f d st.tasks }

/-- Row-click handler handleTaskRowClick: a click on the already selected
task id toggles the detail visibility and keeps the selection; a click on a
different id selects it and always shows the detail panel (the detail and
comment fetches it triggers are outward effects, not state). -/
def handleTaskRowClick (taskId : Int) (st : ControllerState) :
    ControllerState :=
  if st.selectedTaskId = some taskId then
    { st with detailVisible := !st.detailVisible }
  else
    { st with selectedTaskId := some taskId, detailVisible := true }

/-- Detail-panel close handler closeTaskDetail: clears the visibility flag
and the selected task id (its other statements only restyle the DOM). -/
def closeTaskDetail (st : ControllerState) : ControllerState :=
  { st with detailVisible := false, selectedTaskId := none }

/-- C1: for every task list, sortTasks on the priority field orders the
tasks by the fixed rank table urgent < high < medium < low, and on the
status field by todo < in_progress < review < done, regardless of the input
order: the result is pairwise ordered by the rank key and is a permutation
of the input.  The two closing conjuncts exhibit the table order on concrete
scrambled lists, an order that is not the lexicographic string order
(medium sorts before low, in_progress before done). -/
theorem sortTasks_rank_table_order (parse : String → Option Int)
    (l₁ l₂ : List Task) :
    ((sortTasks parse .priority .asc l₁).Pairwise
        (fun a b => kPrio a ≤ kPrio b)
      ∧ List.Perm (sortTasks parse .priority .asc l₁) l₁)
    ∧ ((sortTasks parse .status .asc l₂).Pairwise
        (fun a b => kStatus a ≤ kStatus b)
      ∧ List.Perm (sortTasks parse .status .asc l₂) l₂)
    ∧ sortTasks parse .priority .asc
        [sampleTask 1 (some "low") none, sampleTask 2 (some "medium") none,
          sampleTask 3 (some "urgent") none, sampleTask 4 (some "high") none]
      = [sampleTask 3 (some "urgent") none, sampleTask 4 (some "high") none,
          sampleTask 2 (some "medium") none, sampleTask 1 (some "low") none]
    ∧ sortTasks parse .status .asc
        [sampleTask 1 none (some "review"), sampleTask 2 none (some "done"),
          sampleTask 3 none (some "todo"),
          sampleTask 4 none (some "in_progress")]
      = [sampleTask 3 none (some "todo"),
          sampleTask 4 none (some "in_progress"),
          sampleTask 1 none (some "review"), sampleTask 2 none (some "done")] := by
  refine ⟨⟨?_, perm_sortIns _ l₁⟩, ⟨?_, perm_sortIns _ l₂⟩, rfl, rfl⟩
  · rw [sortTasks_priority parse .asc l₁]
    exact sorted_sortIns kPrio l₁
  · rw [sortTasks_status parse .asc l₂]
    exact sorted_sortIns kStatus l₂

/-- C3: via the header-click logic, the first click on a fresh field sorts
the list ascending, and toggling the direction twice more (descending, then
ascending again) returns the task list to the order the first click gave it;
for the due-date field the present due dates must parse, which the ISO-8601
date exchange of the backend contract guarantees. -/
theorem clickSortHeader_toggle_roundtrip (parse : String → Option Int)
    (f : SortField) (st : ControllerState)
    (hf : st.currentSortField ≠ f)
    (hdue : f = .due_date → ∀ t ∈ st.tasks, DueOk parse t) :
    (clickSortHeader parse f (clickSortHeader parse f
        (clickSortHeader parse f st))).tasks
      = (clickSortHeader parse f st).tasks := by
  have e1 : clickSortHeader parse f st
      = { st with currentSortField := f, currentSortDirection := .asc,
                  tasks := sortTasks parse f .asc st.tasks } := by
    unfold clickSortHeader
    rw [if_neg (fun h => hf h.symm)]
  rw [e1]
  have e2 : clickSortHeader parse f
      { st with currentSortField := f, currentSortDirection := .asc,
                tasks := sortTasks parse f .asc st.tasks }
      = { st with currentSortField := f, currentSortDirection := .desc,
                  tasks := sortTasks parse f .desc
                    (sortTasks parse f .asc st.tasks) } := by
    unfold clickSortHeader
    rw [if_pos rfl]
    rfl
  rw [e2]
  have e3 : clickSortHeader parse f
      { st with currentSortField := f, currentSortDirection := .desc,
                tasks := sortTasks parse f .desc
                  (sortTasks parse f .asc st.tasks) }
      = { st with currentSortField := f, currentSortDirection := .asc,
                  tasks := sortTasks parse f .asc (sortTasks parse f .desc
                    (sortTasks parse f .asc st.tasks)) } := by
    unfold clickSortHeader
    rw [if_pos rfl]
    rfl
  rw [e3]
  exact sortTasks_roundTrip parse f st.tasks hdue

/-- Witness for C3: a concrete two-task list, sorted from the initial title
field by three clicks on the priority header, indeed returns to the order
the first click produced. -/
theorem clickSortHeader_toggle_roundtrip_witness :
    (clickSortHeader (fun _ => none) .priority
        (clickSortHeader (fun _ => none) .priority
          (clickSortHeader (fun _ => none) .priority
            ⟨[sampleTask 1 (some "low") none, sampleTask 2 (some "urgent") none],
              .title, .asc, none, false⟩))).tasks
      = (clickSortHeader (fun _ => none) .priority
          ⟨[sampleTask 1 (some "low") none, sampleTask 2 (some "urgent") none],
            .title, .asc, none, false⟩).tasks :=
  clickSortHeader_toggle_roundtrip (fun _ => none) .priority
    ⟨[sampleTask 1 (some "low") none, sampleTask 2 (some "urgent") none],
      .title, .asc, none, false⟩
    (by decide) (fun h => SortField.noConfusion h)

/-- C4: clicking the row of the task whose id is the current selectedTaskId
toggles detailVisible and leaves selectedTaskId unchanged; clicking a row
with a different id sets selectedTaskId to that id and always sets
detailVisible to true. -/
theorem handleTaskRowClick_selection (st : ControllerState) (taskId : Int) :
    (st.selectedTaskId = some taskId →
      (handleTaskRowClick taskId st).selectedTaskId = st.selectedTaskId
        ∧ (handleTaskRowClick taskId st).detailVisible = !st.detailVisible)
    ∧ (st.selectedTaskId ≠ some taskId →
      (handleTaskRowClick taskId st).selectedTaskId = some taskId
        ∧ (handleTaskRowClick taskId st).detailVisible = true) := by
  constructor
  · intro h
    rw [handleTaskRowClick, if_pos h]
    exact ⟨rfl, rfl⟩
  · intro h
    rw [handleTaskRowClick, if_neg h]
    exact ⟨rfl, rfl⟩

/-- Witness for C4: both branches at concrete states, a re-click on the
selected task 1 hiding the panel, and a click on task 2 selecting it. -/
theorem handleTaskRowClick_selection_witness :
    ((handleTaskRowClick 1 ⟨[], .title, .asc, some 1, true⟩).selectedTaskId
        = some 1
      ∧ (handleTaskRowClick 1 ⟨[], .title, .asc, some 1, true⟩).detailVisible
        = false)
    ∧ ((handleTaskRowClick 2 ⟨[], .title, .asc, some 1, true⟩).selectedTaskId
        = some 2
      ∧ (handleTaskRowClick 2 ⟨[], .title, .asc, some 1, true⟩).detailVisible
        = true) := by
  constructor
  · exact (handleTaskRowClick_selection ⟨[], .title, .asc, some 1, true⟩ 1).1
      (by decide)
  · exact (handleTaskRowClick_selection ⟨[], .title, .asc, some 1, true⟩ 2).2
      (by decide)

/-- Gregorian civil date (year, month 1 to 12, day) for a count of days from
the epoch 1970-01-01, as getUTCFullYear, getUTCMonth + 1 and getUTCDate
expose it for a valid time value. -/
def civilFromDays (z : Int) : Int × Int × Int :=
  let z2 := z + 719468
  let era := z2.ediv 146097
  let doe := z2.emod 146097
  let yoe := (doe - doe.ediv 1460 + doe.ediv 36524 - doe.ediv 146096).ediv 365
  let y := yoe + era * 400
  let doy := doe - (365 * yoe + yoe.ediv 4 - yoe.ediv 100)
  let mp := (5 * doy + 2).ediv 153
  let d := doy - (153 * mp + 2).ediv 5 + 1
  let m := mp + (if mp < 10 then 3 else -9)
  (if m ≤ 2 then y + 1 else y, m, d)

/-- String conversion of a JavaScript number: NaN stringifies to "NaN". -/
def jsNumToString : Option Int → String
  | none => "NaN"
  | some v => toString v

/-- padStart(2, "0") on a component string. -/
def padStart2 (s : String) : String :=
  if s.length < 2 then String.mk (List.replicate (2 - s.length) '0') ++ s
  else s

/-- Date formatter formatDate: a falsy argument (null, undefined or the
empty string) yields "Not set"; otherwise new Date(dateString) is shifted by
eight hours and printed as year-month-day with zero-padded month and day.
new Date never throws on a string, so an unparseable date produces NaN
components ("NaN-NaN-NaN"); the catch branch that would return
"Invalid date" is unreachable, and the function is total either way. -/
def formatDate (parse : String → Option Int) (dateString : Option String) :
    String :=
  if truthyS dateString then
    let t := parse (dateString.getD "")
    let beijing := t.map (fun ms => ms + 8 * 60 * 60 * 1000)
    let ymd := beijing.map (fun ms => civilFromDays (ms.ediv 86400000))
    let year := jsNumToString (ymd.map (fun x => x.1))
    let month := padStart2 (jsNumToString (ymd.map (fun x => x.2.1)))
    let day := padStart2 (jsNumToString (ymd.map (fun x => x.2.2)))
    year ++ "-" ++ month ++ "-" ++ day
  else "Not set"

/-- C5 (code bug): formatDate does return "Not set" for a nullish or empty
due date and never lets an exception escape (it is a total function), but on
a date string the host parser rejects it returns "NaN-NaN-NaN", not the
"Invalid date" the claim states: new Date(string) never throws, so the catch
arm holding "Invalid date" is dead code. -/
theorem formatDate_falsy_and_invalid :
    formatDate (fun _ => none) none = "Not set"
    ∧ formatDate (fun _ => none) (some "") = "Not set"
    ∧ formatDate (fun _ => none) (some "not-a-date") = "NaN-NaN-NaN"
    ∧ "NaN-NaN-NaN" ≠ "Invalid date" :=
  ⟨rfl, rfl, rfl, by decide⟩

/-- Filter control values read by loadTasks (undefined when a control is
missing from the document, otherwise the select/input value string). -/
structure FilterValues where
  status : Option String
  assignee : Option String
  project : Option String
  priority : Option String
  text : Option String
deriving DecidableEq

/-- One guarded append of loadTasks: the parameter is appended when its
value is truthy and differs from the sentinel "all". -/
def appendIfFilter (name : String) (v : Option String) :
    List (String × String) :=
  match v with
  | some s => if s ≠ "" ∧ s ≠ "all" then [(name, s)] else []
  | none => []

/-- The final append of loadTasks for the free-text search: guarded by
truthiness alone. -/
def appendIfText (v : Option String) : List (String × String) :=
  match v with
  | some s => if s ≠ "" then [("search_text", s)] else []
  | none => []

/-- Parameter list accumulated into URLSearchParams by loadTasks, in source
order: status, assignee, project, priority, search_text. -/
def loadTasksQueryPairs (fv : FilterValues) : List (String × String) :=
  appendIfFilter "status" fv.status ++ appendIfFilter "assignee" fv.assignee
    ++ appendIfFilter "project" fv.project
    ++ appendIfFilter "priority" fv.priority ++ appendIfText fv.text

/-- Uppercase hexadecimal digit. -/
def hexDigit (n : Nat) : Char :=
  if n < 10 then Char.ofNat (48 + n) else Char.ofNat (55 + n)

/-- UTF-8 bytes of one character (URLSearchParams serialises UTF-8). -/
def utf8Bytes (c : Char) : List Nat :=
  let n := c.toNat
  if n < 128 then [n]
  else if n < 2048 then [192 + n / 64, 128 + n % 64]
  else if n < 65536 then [224 + n / 4096, 128 + (n / 64) % 64, 128 + n % 64]
  else [240 + n / 262144, 128 + (n / 4096) % 64, 128 + (n / 64) % 64,
    128 + n % 64]

/-- Percent-escape of one byte. -/
def percentByte (b : Nat) : List Char :=
  ['%', hexDigit (b / 16), hexDigit (b % 16)]

/-- application/x-www-form-urlencoded serialisation of one character as
URLSearchParams.toString performs it: ASCII alphanumerics and *-._ pass
through, a space becomes +, every other character is percent-escaped
bytewise. -/
def encodeFormChar (c : Char) : List Char :=
  if ('a' ≤ c ∧ c ≤ 'z') ∨ ('A' ≤ c ∧ c ≤ 'Z') ∨ ('0' ≤ c ∧ c ≤ '9')
      ∨ c = '*' ∨ c = '-' ∨ c = '.' ∨ c = '_' then [c]
  else if c = ' ' then ['+']
  else (utf8Bytes c).foldr (fun b r => percentByte b ++ r) []

/-- Form-urlencoded serialisation of a string. -/
def encodeForm (s : String) : String :=
  String.mk (s.toList.foldr (fun c r => encodeFormChar c ++ r) [])

/-- Ampersand-joined key=value serialisation, URLSearchParams.toString. -/
def joinAmp : List String → String
  | [] => ""
  | [s] => s
  | s :: rest => s ++ "&" ++ joinAmp rest

/-- Query string produced by loadTasks for given filter values. -/
def loadTasksQuery (fv : FilterValues) : String :=
  joinAmp ((loadTasksQueryPairs fv).map
    (fun p => encodeForm p.1 ++ "=" ++ encodeForm p.2))

/-- Statement of claim C2 in the spec words: each of the five parameters is
included exactly when its value is neither the literal "all" nor empty. -/
def SpecC2 : Prop :=
  ∀ fv : FilterValues, ∀ v : String,
    (("status", v) ∈ loadTasksQueryPairs fv
      ↔ fv.status = some v ∧ v ≠ "all" ∧ v ≠ "")
    ∧ (("assignee", v) ∈ loadTasksQueryPairs fv
      ↔ fv.assignee = some v ∧ v ≠ "all" ∧ v ≠ "")
    ∧ (("project", v) ∈ loadTasksQueryPairs fv
      ↔ fv.project = some v ∧ v ≠ "all" ∧ v ≠ "")
    ∧ (("priority", v) ∈ loadTasksQueryPairs fv
      ↔ fv.priority = some v ∧ v ≠ "all" ∧ v ≠ "")
    ∧ (("search_text", v) ∈ loadTasksQueryPairs fv
      ↔ fv.text = some v ∧ v ≠ "all" ∧ v ≠ "")

/-- Counterexample to C2 as stated: a free-text value of the literal "all"
is still appended (the search_text guard checks only truthiness, not the
sentinel), so the query for that input is search_text=all instead of the
empty query the claim requires. -/
theorem loadTasksQuery_text_all_counterexample :
    ¬ SpecC2
    ∧ loadTasksQuery ⟨none, none, none, none, some "all"⟩
      = "search_text=all" := by
  constructor
  · intro h
    have h5 := (h ⟨none, none, none, none, some "all"⟩ "all").2.2.2.2
    have hm : ("search_text", "all")
        ∈ loadTasksQueryPairs ⟨none, none, none, none, some "all"⟩ := by
      decide
    exact ((h5.mp hm).2.1) rfl
  · rfl

theorem mem_appendIfFilter_iff (n m v : String) (w : Option String) :
    ((n, v) ∈ appendIfFilter m w)
      ↔ (n = m ∧ w = some v ∧ v ≠ "" ∧ v ≠ "all") := by
  cases w with
  | none => simp [appendIfFilter]
  | some s =>
    by_cases hc : s ≠ "" ∧ s ≠ "all"
    · simp only [appendIfFilter, if_pos hc, List.mem_singleton,
        Prod.mk.injEq, Option.some.injEq]
      constructor
      · rintro ⟨rfl, rfl⟩
        exact ⟨rfl, rfl, hc.1, hc.2⟩
      · rintro ⟨rfl, rfl, _⟩
        exact ⟨rfl, rfl⟩
    · simp only [appendIfFilter, if_neg hc, List.not_mem_nil, false_iff]
      rintro ⟨rfl, hw, hv1, hv2⟩
      exact hc ⟨fun h => hv1 (Option.some.inj hw ▸ h),
        fun h => hv2 (Option.some.inj hw ▸ h)⟩

theorem mem_appendIfText_iff (n v : String) (w : Option String) :
    ((n, v) ∈ appendIfText w)
      ↔ (n = "search_text" ∧ w = some v ∧ v ≠ "") := by
  cases w with
  | none => simp [appendIfText]
  | some s =>
    by_cases hc : s ≠ ""
    · simp only [appendIfText, if_pos hc, List.mem_singleton,
        Prod.mk.injEq, Option.some.injEq]
      constructor
      · rintro ⟨rfl, rfl⟩
        exact ⟨rfl, rfl, hc⟩
      · rintro ⟨rfl, rfl, _⟩
        exact ⟨rfl, rfl⟩
    · simp only [appendIfText, if_neg hc, List.not_mem_nil, false_iff]
      rintro ⟨rfl, hw, hv⟩
      exact hc (fun h => hv (Option.some.inj hw ▸ h))

/-- C2 amended: the four select filters (status, assignee, project,
priority) are included exactly when the value is neither "all" nor empty,
while search_text is included exactly when the value is nonempty, with no
sentinel test; the spec example stands: status "all" and project "7" (other
filters at their sentinels) yield exactly project=7. -/
theorem loadTasksQueryPairs_characterisation (fv : FilterValues)
    (v : String) :
    (("status", v) ∈ loadTasksQueryPairs fv
      ↔ fv.status = some v ∧ v ≠ "" ∧ v ≠ "all")
    ∧ (("assignee", v) ∈ loadTasksQueryPairs fv
      ↔ fv.assignee = some v ∧ v ≠ "" ∧ v ≠ "all")
    ∧ (("project", v) ∈ loadTasksQueryPairs fv
      ↔ fv.project = some v ∧ v ≠ "" ∧ v ≠ "all")
    ∧ (("priority", v) ∈ loadTasksQueryPairs fv
      ↔ fv.priority = some v ∧ v ≠ "" ∧ v ≠ "all")
    ∧ (("search_text", v) ∈ loadTasksQueryPairs fv
      ↔ fv.text = some v ∧ v ≠ "")
    ∧ loadTasksQuery ⟨some "all", some "all", some "7", some "all", some ""⟩
      = "project=7" := by
  refine ⟨?_, ?_, ?_, ?_, ?_, rfl⟩ <;>
    simp [loadTasksQueryPairs, List.mem_append, mem_appendIfFilter_iff,
      mem_appendIfText_iff]

/-- Witness for C2 amended: the characterisation applied at the spec
example, giving the exact query project=7. -/
theorem loadTasksQueryPairs_characterisation_witness :
    loadTasksQuery ⟨some "all", some "all", some "7", some "all", some ""⟩
      = "project=7" :=
  (loadTasksQueryPairs_characterisation
    ⟨some "all", some "all", some "7", some "all", some ""⟩ "7").2.2.2.2.2

/-- Leading decimal digits of a character list, none when no digit leads. -/
def parseDigits (cs : List Char) : Option Nat :=
  let ds := cs.takeWhile (fun c => decide ('0' ≤ c ∧ c ≤ '9'))
  if ds = [] then none
  else some (ds.foldl (fun n c => n * 10 + (c.toNat - 48)) 0)

/-- parseInt on a string: after optional whitespace and sign, the leading
digit run is parsed; no leading digit gives NaN. -/
def parseIntLeading (cs0 : List Char) : Option Int :=
  match cs0.dropWhile Char.isWhitespace with
  | '-' :: rest => (parseDigits rest).map (fun n => -(n : Int))
  | '+' :: rest => (parseDigits rest).map (fun n => (n : Int))
  | cs => (parseDigits cs).map (fun n => (n : Int))

/-- parseInt on a form value: a null value stringifies to "null" and parses
to NaN (none), a string parses by parseIntLeading. -/
def jsParseInt (v : Option String) : Option Int :=
  match v with
  | none => none
  | some s => parseIntLeading s.toList

/-- Values of the task form as FormData.get returns them: null (none) when
the field is absent, otherwise the control value string. -/
structure TaskFormData where
  id : Option String
  title : Option String
  description : Option String
  type : Option String
  status : Option String
  priority : Option String
  severity : Option String
  project_id : Option String
  project : Option String
  assignee_id : Option String
  assignee : Option String
  start_date : Option String
  due_date : Option String
deriving DecidableEq

/-- Network request assembled by handleTaskSubmission; the body fields carry
parsed date timestamps standing for the toISOString text, and project_id is
none when parseInt produced NaN (JSON.stringify serialises NaN as null). -/
structure TaskRequest where
  url : String
  method : String
  title : Option String
  description : Option String
  type : Option String
  status : Option String
  priority : Option String
  severity : Option String
  project_id : Option Int
  assignee_id : Option (Option Int)
  start_date : Option Int
  due_date : Option Int
deriving DecidableEq

/-- Submission handler handleTaskSubmission of task_manage.js (both
controller versions in that file build taskData the same way; the differing
variant of task_manage copy.js is handleTaskSubmissionCopy below): it
constructs the payload and issues the fetch unconditionally; no client-side
validation happens, an absent or empty project yields project_id = parseInt
of the empty value = NaN.  The result is the issued request; none arises
only when a truthy but unparseable date field makes
new Date(field).toISOString() throw a RangeError before the fetch. -/
def handleTaskSubmission (parse : String → Option Int)
    (form : TaskFormData) : Option TaskRequest :=
  let taskId := form.id
  let projectVal := jsStrOr form.project_id form.project
  let assigneeVal := jsStrOr form.assignee_id form.assignee
  let startConv : Option (Option Int) :=
    if truthyS form.start_date then
      match parse (form.start_date.getD "") with
      | some v => some (some v)
      | none => none
    else some none
  let dueConv : Option (Option Int) :=
    if truthyS form.due_date then
      match parse (form.due_date.getD "") with
      | some v => some (some v)
      | none => none
    else some none
  match startConv, dueConv with
  | some sd, some dd =>
    some { url := if truthyS taskId then "/api/tasks/" ++ taskId.getD ""
             else "/api/tasks",
           method := if truthyS taskId then "PUT" else "POST",
           title := form.title, description := form.description,
           type := form.type, status := form.status,
           priority := form.priority, severity := form.severity,
           project_id := jsParseInt projectVal,
           assignee_id := if truthyS assigneeVal
             then some (jsParseInt assigneeVal) else none,
           start_date := sd, due_date := dd }
  | _, _ => none

/-- Submission handler handleTaskSubmission of task_manage copy.js (lines
2277 to 2306 hold the validation): unlike the task_manage.js variants, it
validates the project selection before any network call: a project_id value
that is nullish, empty, "null" or "undefined" surfaces the notification
"Please select a project" and returns without issuing a request.  When the
guard passes, the payload is built as in the other variant (the optional
dates can still abort via a toISOString RangeError), with the same guard on
assignee_id instead of bare truthiness, and no fallback reads of the
project/assignee fields.  The result pairs the issued request (none when no
fetch happened) with the notifications surfaced before the fetch. -/
def handleTaskSubmissionCopy (parse : String → Option Int)
    (form : TaskFormData) : Option TaskRequest × List String :=
  let taskId := form.id
  match form.project_id with
  | none => (none, ["Please select a project"])
  | some v =>
    if v ≠ "" ∧ v ≠ "null" ∧ v ≠ "undefined" then
      let assigneeOk :=
        match form.assignee_id with
        | some w => decide (w ≠ "" ∧ w ≠ "null" ∧ w ≠ "undefined")
        | none => false
      let startConv : Option (Option Int) :=
        if truthyS form.start_date then
          match parse (form.start_date.getD "") with
          | some t => some (some t)
          | none => none
        else some none
      let dueConv : Option (Option Int) :=
        if truthyS form.due_date then
          match parse (form.due_date.getD "") with
          | some t => some (some t)
          | none => none
        else some none
      match startConv, dueConv with
      | some sd, some dd =>
        (some { url := if truthyS taskId then "/api/tasks/" ++ taskId.getD ""
                  else "/api/tasks",
                method := if truthyS taskId then "PUT" else "POST",
                title := form.title, description := form.description,
                type := form.type, status := form.status,
                priority := form.priority, severity := form.severity,
                project_id := jsParseInt (some v),
                assignee_id := if assigneeOk
                  then some (jsParseInt form.assignee_id) else none,
                start_date := sd, due_date := dd }, [])
      | _, _ => (none, [])
    else (none, ["Please select a project"])

/-- Statement of claim C6 in the spec words, instantiated at the
handleTaskSubmission of src/static/js/task_manage.js (the claim's first
code source): a create-mode submission (no task id) with no project
selected is rejected client-side, issuing no network request. -/
def SpecC6 : Prop :=
  ∀ (parse : String → Option Int) (form : TaskFormData),
    truthyS form.id = false →
    truthyS (jsStrOr form.project_id form.project) = false →
    handleTaskSubmission parse form = none

/-- The blank create form: every FormData.get answers null or empty. -/
def emptyForm : TaskFormData :=
  ⟨none, none, none, none, none, none, none, none, none, none, none, none,
    none⟩

/-- Counterexample to C6: submitting the blank create form, which has no
project selected, still issues a request (POST /api/tasks with project_id
NaN); handleTaskSubmission contains no project validation. -/
theorem handleTaskSubmission_no_validation : ¬ SpecC6 := by
  intro h
  have hc := h (fun _ => none) emptyForm rfl rfl
  exact absurd hc (by decide)

theorem jsParseInt_falsy (v : Option String) (h : truthyS v = false) :
    jsParseInt v = none := by
  cases v with
  | none => rfl
  | some s =>
    have hs : s = "" := by
      by_cases he : s = ""
      · exact he
      · exact absurd h (by simp [truthyS, he])
    subst hs
    rfl

/-- C6 amended: the repository holds two different submission handlers.
The handleTaskSubmission of task_manage copy.js does reject a create-mode
submission with no project selected client-side: it issues no request and
surfaces the Please select a project notification, before the date fields
are even touched.  The handleTaskSubmission of task_manage.js (both
versions there) performs no such validation: with the optional date fields
empty or absent (so toISOString cannot throw), the same submission still
issues the POST to /api/tasks, with project_id NaN. -/
theorem handleTaskSubmission_validation_split
    (parse : String → Option Int) (form : TaskFormData)
    (hid : truthyS form.id = false)
    (hpid : truthyS form.project_id = false)
    (hp : truthyS form.project = false)
    (hsd : truthyS form.start_date = false)
    (hdd : truthyS form.due_date = false) :
    (handleTaskSubmissionCopy parse form).1 = none
    ∧ (handleTaskSubmissionCopy parse form).2 = ["Please select a project"]
    ∧ ∃ req : TaskRequest, handleTaskSubmission parse form = some req
      ∧ req.url = "/api/tasks" ∧ req.method = "POST"
      ∧ req.project_id = none := by
  have hcopy : handleTaskSubmissionCopy parse form
      = (none, ["Please select a project"]) := by
    cases hpi : form.project_id with
    | none =>
      unfold handleTaskSubmissionCopy
      rw [hpi]
    | some v =>
      have hv : v = "" := by
        by_cases he : v = ""
        · exact he
        · rw [hpi] at hpid
          exact absurd hpid (by simp [truthyS, he])
      subst hv
      unfold handleTaskSubmissionCopy
      rw [hpi]
      dsimp only
      rw [if_neg (fun hc => hc.1 rfl)]
  have hor : jsStrOr form.project_id form.project = form.project := by
    unfold jsStrOr
    rw [hpid]
    rfl
  refine ⟨by rw [hcopy], by rw [hcopy], ?_⟩
  unfold handleTaskSubmission
  simp only [hsd, hdd, hid, Bool.false_eq_true, if_false]
  refine ⟨_, rfl, rfl, rfl, jsParseInt_falsy _ ?_⟩
  rw [hor]
  exact hp

/-- Witness for C6 amended: on the blank create form, the copy.js handler
issues nothing and surfaces the validation notification, while the
task_manage.js handler issues POST /api/tasks with project_id NaN. -/
theorem handleTaskSubmission_validation_split_witness :
    (handleTaskSubmissionCopy (fun _ => none) emptyForm).1 = none
    ∧ (handleTaskSubmissionCopy (fun _ => none) emptyForm).2
      = ["Please select a project"]
    ∧ ∃ req : TaskRequest,
      handleTaskSubmission (fun _ => none) emptyForm = some req
        ∧ req.url = "/api/tasks" ∧ req.method = "POST"
        ∧ req.project_id = none :=
  handleTaskSubmission_validation_split (fun _ => none) emptyForm
    rfl rfl rfl rfl rfl

/-- Delete handler deleteTask of task_manage copy.js (lines 2052 to 2088):
requires window.confirm, issues the DELETE, and on a success response
removes the task row from the DOM and, when the deleted id equals
selectedTaskId, clears selectedTaskId and detailVisible (the closeTaskDetail
call then repeats both resets); the in-memory tasks array is left untouched,
only the rendered row disappears.  A failure response or transport error
only surfaces a notification.  The Boolean arguments carry the confirmation
answer and the server verdict. -/
def deleteTask (confirmed serverOk : Bool) (taskId : Int)
    (st : ControllerState) : ControllerState :=
  if confirmed then
    if serverOk then
      if st.selectedTaskId = some taskId then
        { st with selectedTaskId := none, detailVisible := false }
      else st
    else st
  else st

/-- C7: on a confirmed delete with a success response, deleting the
currently selected task clears both selectedTaskId and detailVisible, and
deleting any other task leaves the selection state unchanged. -/
theorem deleteTask_selection (st : ControllerState) (taskId : Int) :
    (st.selectedTaskId = some taskId →
      (deleteTask true true taskId st).selectedTaskId = none
        ∧ (deleteTask true true taskId st).detailVisible = false)
    ∧ (st.selectedTaskId ≠ some taskId →
      (deleteTask true true taskId st).selectedTaskId = st.selectedTaskId
        ∧ (deleteTask true true taskId st).detailVisible
          = st.detailVisible) := by
  constructor
  · intro h
    simp [deleteTask, h]
  · intro h
    simp [deleteTask, h]

/-- Witness for C7: deleting selected task 1 clears the selection, deleting
unrelated task 2 keeps it. -/
theorem deleteTask_selection_witness :
    ((deleteTask true true 1
        ⟨[sampleTask 1 none none], .title, .asc, some 1, true⟩).selectedTaskId
      = none
    ∧ (deleteTask true true 1
        ⟨[sampleTask 1 none none], .title, .asc, some 1, true⟩).detailVisible
      = false)
    ∧ ((deleteTask true true 2
        ⟨[sampleTask 1 none none], .title, .asc, some 1, true⟩).selectedTaskId
      = some 1
    ∧ (deleteTask true true 2
        ⟨[sampleTask 1 none none], .title, .asc, some 1, true⟩).detailVisible
      = true) := by
  constructor
  · exact (deleteTask_selection
      ⟨[sampleTask 1 none none], .title, .asc, some 1, true⟩ 1).1 (by decide)
  · exact (deleteTask_selection
      ⟨[sampleTask 1 none none], .title, .asc, some 1, true⟩ 2).2 (by decide)

/-- Fallback display of a nullish or empty string value, the x || fallback
idiom of the row renderer. -/
def strOrDefault (v : Option String) (dflt : String) : String :=
  if truthyS v then v.getD "" else dflt

/-- Priority display text getPriorityText: lowercased table lookup with the
Unknown fallback. -/
def getPriorityText (priority : Option String) : String :=
  match jsToLower (priority.getD "") with
  | "high" => "High"
  | "medium" => "Medium"
  | "low" => "Low"
  | "urgent" => "Urgent"
  | _ => "Unknown"

/-- Status display text getStatusText. -/
def getStatusText (status : Option String) : String :=
  match jsToLower (status.getD "") with
  | "todo" => "To Do"
  | "in_progress" => "In Progress"
  | "review" => "In Review"
  | "done" => "Done"
  | _ => "Unknown"

/-- Data rendered into one table row by renderTasksTable: the cell texts,
the data-task-id, and whether the selected row class is applied. -/
structure RowView where
  taskId : Int
  title : String
  projectName : String
  assigneeName : String
  priorityText : String
  statusText : String
  dueDate : String
  selected : Bool
deriving DecidableEq

/-- Rendered table body: the explicit empty state with its heading, or the
task rows. -/
inductive TableView where
  | emptyState (heading : String)
  | rows (rs : List RowView)
deriving DecidableEq

/-- One row of renderTasksTable for a task under the current selection
state. -/
def renderTaskRow (parse : String → Option Int) (selectedTaskId : Option Int)
    (detailVisible : Bool) (t : Task) : RowView :=
  { taskId := t.id,
    title := strOrDefault t.title "Untitled Task",
    projectName := strOrDefault (t.project.bind Project.name) "No Project",
    assigneeName := strOrDefault (jsStrOr (t.assignee.bind Assignee.full_name)
      (t.assignee.bind Assignee.username)) "Unassigned",
    priorityText := getPriorityText t.priority,
    statusText := getStatusText t.status,
    dueDate := if truthyS t.due_date then formatDate parse t.due_date
      else "Not set",
    selected := decide (selectedTaskId = some t.id) && detailVisible }

/-- Table renderer renderTasksTable: an empty list renders the explicit
empty state with the No tasks found heading, a nonempty list renders one row
per task. -/
def renderTasksTable (parse : String → Option Int)
    (selectedTaskId : Option Int) (detailVisible : Bool) (ts : List Task) :
    TableView :=
  if ts.isEmpty then .emptyState "No tasks found"
  else .rows (ts.map (renderTaskRow parse selectedTaskId detailVisible))

/-- Settled result of the loadTasks fetch: a parsed success body, a non-OK
HTTP response, or a transport failure. -/
inductive LoadResult where
  | ok (data : List Task)
  | httpError (status : Nat)
  | networkError
deriving DecidableEq

/-- What one loadTasks run leaves behind: the new client state, the rendered
table, and the surfaced notifications. -/
structure LoadOutcome where
  state : ControllerState
  view : TableView
  notifications : List String
deriving DecidableEq

/-- Task loader loadTasks once its fetch settles: a success response
replaces the in-memory list, re-sorts it under the current sort state and
renders it; a non-OK response throws into the same catch as a transport
error, which logs, surfaces the failure notification and renders the empty
list (note the in-memory tasks variable itself is not cleared, and the
selection state is never touched). -/
def loadTasksApply (parse : String → Option Int) (r : LoadResult)
    (st : ControllerState) : LoadOutcome :=
  match r with
  | .ok data =>
    let sorted := sortTasks parse st.currentSortField
      st.currentSortDirection data
    { state := { st with tasks := sorted },
      view := renderTasksTable parse st.selectedTaskId st.detailVisible
        sorted,
      notifications := [] }
  | _ =>
    { state := st,
      view := renderTasksTable parse st.selectedTaskId st.detailVisible [],
      notifications := ["Failed to load tasks. Please try again later."] }

/-- C9: whenever loadTasks fails, with a non-OK HTTP response or a transport
error, the controller renders the explicit empty-state table (zero rows,
the No tasks found placeholder) and surfaces the failure notification; the
previously rendered rows are never left in place silently. -/
theorem loadTasks_failure_renders_empty (parse : String → Option Int)
    (r : LoadResult) (st : ControllerState) (h : ∀ data, r ≠ .ok data) :
    (loadTasksApply parse r st).view = .emptyState "No tasks found"
    ∧ (loadTasksApply parse r st).notifications
      = ["Failed to load tasks. Please try again later."] := by
  cases r with
  | ok data => exact absurd rfl (h data)
  | httpError code => exact ⟨rfl, rfl⟩
  | networkError => exact ⟨rfl, rfl⟩

/-- Witness for C9: a 500 response over a nonempty rendered list yields the
empty-state view and the notification. -/
theorem loadTasks_failure_renders_empty_witness :
    (loadTasksApply (fun _ => none) (.httpError 500)
        ⟨[sampleTask 1 none none], .title, .asc, none, false⟩).view
      = .emptyState "No tasks found"
    ∧ (loadTasksApply (fun _ => none) (.httpError 500)
        ⟨[sampleTask 1 none none], .title, .asc, none, false⟩).notifications
      = ["Failed to load tasks. Please try again later."] :=
  loadTasks_failure_renders_empty (fun _ => none) (.httpError 500)
    ⟨[sampleTask 1 none none], .title, .asc, none, false⟩
    (fun _ h => LoadResult.noConfusion h)

/-- C10: the sortTasks comparator is a total function with values -1, 0, 1
(no input can make it throw); a task whose priority is outside the rank
table gets the undefined rank, coerced to the empty string, whose ToNumber
is 0, so it ties with an urgent task in both argument orders; an unknown
status likewise ties with todo. -/
theorem jsCompare_total_and_unknown_ties (parse : String → Option Int)
    (d : SortDir) (a b : Task) :
    (∀ f, jsCompare parse f d a b = -1 ∨ jsCompare parse f d a b = 0
      ∨ jsCompare parse f d a b = 1)
    ∧ (priorityOrder a.priority = none → b.priority = some "urgent" →
      jsCompare parse .priority d a b = 0
        ∧ jsCompare parse .priority d b a = 0)
    ∧ (statusOrder a.status = none → b.status = some "todo" →
      jsCompare parse .status d a b = 0
        ∧ jsCompare parse .status d b a = 0) := by
  refine ⟨?_, ?_, ?_⟩
  · intro f
    cases d <;> (unfold jsCompare; dsimp only; split_ifs) <;> simp
  · intro hA hB
    have hvA : sortValue parse .priority a = .str "" := by
      unfold sortValue
      rw [hA]
      rfl
    have hvB : sortValue parse .priority b = .num 0 := by
      unfold sortValue
      rw [hB]
      rfl
    constructor <;> (unfold jsCompare; rw [hvA, hvB]) <;>
      cases d <;> simp [jsLtV, jsToNumber]
  · intro hA hB
    have hvA : sortValue parse .status a = .str "" := by
      unfold sortValue
      rw [hA]
      rfl
    have hvB : sortValue parse .status b = .num 0 := by
      unfold sortValue
      rw [hB]
      rfl
    constructor <;> (unfold jsCompare; rw [hvA, hvB]) <;>
      cases d <;> simp [jsLtV, jsToNumber]

/-- Witness for C10: a task with the out-of-table priority critical ties
with an urgent task, and one with the out-of-table status archived ties with
a todo task. -/
theorem jsCompare_total_and_unknown_ties_witness :
    jsCompare (fun _ => none) .priority .asc
        (sampleTask 1 (some "critical") (some "archived"))
        (sampleTask 2 (some "urgent") (some "todo")) = 0
    ∧ jsCompare (fun _ => none) .status .asc
        (sampleTask 1 (some "critical") (some "archived"))
        (sampleTask 2 (some "urgent") (some "todo")) = 0 := by
  have h := jsCompare_total_and_unknown_ties (fun _ => none) .asc
    (sampleTask 1 (some "critical") (some "archived"))
    (sampleTask 2 (some "urgent") (some "todo"))
  exact ⟨(h.2.1 rfl rfl).1, (h.2.2 rfl rfl).1⟩

/-- State of the controller right after initialisation, before any data
arrives. -/
def initState : ControllerState :=
  ⟨[], .title, .asc, none, false⟩

/-- Reachability of client states from the initial state through the
controller operations: reloads with any settled result, row clicks (a row
click carries the data-task-id of a rendered, hence loaded, task), header
clicks, closing the detail panel and deletions. -/
inductive Reachable (parse : String → Option Int) : ControllerState → Prop
  | init : Reachable parse initState
  | load (r : LoadResult) {st : ControllerState} :
      Reachable parse st →
      Reachable parse (loadTasksApply parse r st).state
  | click (taskId : Int) {st : ControllerState} :
      Reachable parse st → (∃ t ∈ st.tasks, t.id = taskId) →
      Reachable parse (handleTaskRowClick taskId st)
  | header (f : SortField) {st : ControllerState} :
      Reachable parse st →
      Reachable parse (clickSortHeader parse f st)
  | close {st : ControllerState} :
      Reachable parse st → Reachable parse (closeTaskDetail st)
  | del (confirmed serverOk : Bool) (taskId : Int) {st : ControllerState} :
      Reachable parse st →
      Reachable parse (deleteTask confirmed serverOk taskId st)

/-- The invariant claimed by C8: the selected task id is null or the id of
a task present in the loaded collection. -/
def SelectionInv (st : ControllerState) : Prop :=
  st.selectedTaskId = none ∨ ∃ t ∈ st.tasks, some t.id = st.selectedTaskId

instance (st : ControllerState) : Decidable (SelectionInv st) := by
  unfold SelectionInv
  infer_instance

/-- Statement of claim C8 in the spec words: the invariant holds at every
reachable point, in particular after loadTasks replaces the collection. -/
def SpecC8 : Prop :=
  ∀ (parse : String → Option Int) (st : ControllerState),
    Reachable parse st → SelectionInv st

/-- Counterexample to C8: load task 1, select it, then reload under new
filters returning only task 2; loadTasks never touches selectedTaskId, so
the reached state keeps selectedTaskId 1 while the collection no longer
contains a task with that id. -/
theorem selection_invariant_counterexample : ¬ SpecC8 := by
  intro h
  have r1 : Reachable (fun _ => none)
      (loadTasksApply (fun _ => none) (.ok [sampleTask 1 none none])
        initState).state :=
    Reachable.load (.ok [sampleTask 1 none none]) Reachable.init
  have r2 : Reachable (fun _ => none)
      (handleTaskRowClick 1
        (loadTasksApply (fun _ => none) (.ok [sampleTask 1 none none])
          initState).state) :=
    Reachable.click 1 r1 (by decide)
  have r3 : Reachable (fun _ => none)
      (loadTasksApply (fun _ => none) (.ok [sampleTask 2 none none])
        (handleTaskRowClick 1
          (loadTasksApply (fun _ => none) (.ok [sampleTask 1 none none])
            initState).state)).state :=
    Reachable.load (.ok [sampleTask 2 none none]) r2
  exact absurd (h (fun _ => none) _ r3) (by decide)

/-- C8 amended: every operation except a collection-replacing reload
preserves the selection invariant (deletions clear the selection when it
references the deleted id and never modify the in-memory collection), and a
successful reload preserves it exactly when nothing is selected or the new
collection retains the selected id; the invariant as claimed fails at
reachable states where a reload under new filters drops the selected task. -/
theorem selection_invariant_preservation (parse : String → Option Int)
    (st : ControllerState) (hinv : SelectionInv st) :
    (∀ taskId, (∃ t ∈ st.tasks, t.id = taskId) →
      SelectionInv (handleTaskRowClick taskId st))
    ∧ (∀ f, SelectionInv (clickSortHeader parse f st))
    ∧ SelectionInv (closeTaskDetail st)
    ∧ (∀ confirmed serverOk taskId,
      SelectionInv (deleteTask confirmed serverOk taskId st))
    ∧ (∀ r, (∀ data, r ≠ .ok data) →
      SelectionInv (loadTasksApply parse r st).state)
    ∧ (∀ data,
      (st.selectedTaskId = none ∨ ∃ t ∈ data, some t.id = st.selectedTaskId)
        → SelectionInv (loadTasksApply parse (.ok data) st).state) := by
  refine ⟨?_, ?_, ?_, ?_, ?_, ?_⟩
  · rintro taskId ⟨t, ht, hid⟩
    unfold handleTaskRowClick
    split
    · exact hinv
    · exact Or.inr ⟨t, ht, by rw [hid]⟩
  · intro f
    rcases hinv with h | ⟨t, ht, he⟩
    · exact Or.inl h
    · refine Or.inr ⟨t, ?_, he⟩
      show t ∈ sortTasks parse f _ st.tasks
      unfold sortTasks
      exact (mem_sortIns _ st.tasks t).mpr ht
  · exact Or.inl rfl
  · intro confirmed serverOk taskId
    unfold deleteTask
    split
    · split
      · split
        · exact Or.inl rfl
        · exact hinv
      · exact hinv
    · exact hinv
  · intro r hr
    cases r with
    | ok data => exact absurd rfl (hr data)
    | httpError code => exact hinv
    | networkError => exact hinv
  · intro data hd
    rcases hd with h | ⟨t, ht, he⟩
    · exact Or.inl h
    · refine Or.inr ⟨t, ?_, he⟩
      show t ∈ sortTasks parse _ _ data
      unfold sortTasks
      exact (mem_sortIns _ data t).mpr ht

/-- Witness for C8 amended: from a state with task 1 loaded and selected,
closing the panel and re-clicking the row both preserve the invariant. -/
theorem selection_invariant_preservation_witness :
    SelectionInv (closeTaskDetail
      ⟨[sampleTask 1 none none], .title, .asc, some 1, true⟩)
    ∧ SelectionInv (handleTaskRowClick 1
      ⟨[sampleTask 1 none none], .title, .asc, some 1, true⟩) := by
  have h := selection_invariant_preservation (fun _ => none)
    ⟨[sampleTask 1 none none], .title, .asc, some 1, true⟩ (by decide)
  exact ⟨h.2.2.1, h.1 1 (by decide)⟩

end TaskManage
